import Mathlib

/-!
Verification of the `show-dogs` Raycast extension (`src/show-dogs.tsx`)
against its natural-language specification.

The development shallowly embeds the string-processing logic and the
voice-search pipeline of the extension.  JavaScript strings are modelled as
`List Char`; the embedding of case-mapping, whitespace and trimming is the
ASCII fragment (the inputs of interest are ASCII).  Stateful React code is
modelled as explicit state passing over a `World` record; the external
services (Dog CEO API, OpenAI synthesis/transcription, the sox recorder and
the audio player) are oracles passed as parameters.  Fallible operations
return `Except`.
-/

namespace ShowDogs

/-! ## JavaScript string primitives on `List Char` -/

/-- The characters removed by `replace(/[.,!?]/g, "")` in `fetchDog`
(`show-dogs.tsx` line 221). -/
def punctChars : List Char := ['.', ',', '!', '?']

/-- Embedding of `.replace(/[.,!?]/g, "")`: delete every occurrence of the
four punctuation characters. -/
def stripPunct (l : List Char) : List Char :=
  l.filter (fun c => !punctChars.contains c)

/-- Embedding of `String.prototype.trim`: drop whitespace from both ends
(ASCII whitespace fragment: space, tab, carriage return, newline). -/
def trimL (l : List Char) : List Char :=
  ((l.dropWhile Char.isWhitespace).reverse.dropWhile Char.isWhitespace).reverse

/-- Embedding of `String.prototype.split(sep)` for a one-character separator:
like JavaScript, adjacent separators produce empty tokens and the result is
never the empty list (`"".split(" ")` is `[""]`). -/
def splitChar (sep : Char) : List Char → List (List Char)
  | [] => [[]]
  | c :: rest =>
    if c = sep then [] :: splitChar sep rest
    else
      match splitChar sep rest with
      | [] => [[c]]
      | t :: ts => (c :: t) :: ts

/-- Embedding of `Array.prototype.join(" ")` on a list of tokens. -/
def joinSpace (ts : List (List Char)) : List Char :=
  List.intercalate [' '] ts

/-! ## Breed text normalisation (`fetchDog` lines 217-233) -/

/-- The token list computed by `fetchDog` from free text:
`.toLowerCase().replace(/[.,!?]/g, "").trim().split(" ")`.
Lowercasing is `Char.toLower`, the ASCII case mapping, matching
`toLowerCase` on the ASCII inputs this extension deals with. -/
def searchTokens (s : List Char) : List (List Char) :=
  splitChar ' ' (trimL (stripPunct (s.map Char.toLower)))

/-- The breed search path derived from free text (spec: `textToSearchPath`).
`fetchDog` inlines this when building the breed URL: two tokens give
`tokens[1] + "/" + tokens[0]`, any other count uses `tokens[0]` alone.
The token list is never empty, so the `[]` arm is unreachable. -/
def textToSearchPath (s : List Char) : List Char :=
  match searchTokens s with
  | [t0, t1] => t1 ++ '/' :: t0
  | t0 :: _ => t0
  | [] => []

/-! ## Breed label extraction (`extractBreedFromUrl` lines 96-104) -/

/-- The marker the source splits on: `url.split("/breeds/")` — the
characters of `"/breeds/"`. -/
def markerL : List Char := ['/', 'b', 'r', 'e', 'e', 'd', 's', '/']

/-- Does the marker occur (as a contiguous subsequence) in `l`? -/
def hasMarker : List Char → Bool
  | [] => false
  | c :: rest => markerL.isPrefixOf (c :: rest) || hasMarker rest

/-- The characters after the first occurrence of the marker, or `none` when
the marker is absent.  The source computes `url.split("/breeds/")[1]`, the
text between the first and second marker occurrences; since the next step
keeps only the prefix up to the first `'/'` and the marker itself starts
with `'/'`, cutting at a later marker occurrence can never change that
prefix, so taking everything after the first occurrence is an equivalent
rendering of the composed expression. -/
def afterMarker : List Char → Option (List Char)
  | [] => none
  | c :: rest =>
    if markerL.isPrefixOf (c :: rest) then some ((c :: rest).drop markerL.length)
    else afterMarker rest

/-- `noOverlap p` holds when no nonempty proper prefix of the marker is a
suffix of `p`; together with `hasMarker p = false` it guarantees that in
`p ++ "/breeds/" ++ rest` the first marker occurrence is the explicit one.
Ordinary URL prefixes such as `"https://images.dog.ceo"` satisfy it. -/
def noOverlap (p : List Char) : Bool :=
  (List.range markerL.length).all
    (fun i => decide (i = 0) || !(markerL.take i).isSuffixOf p)

/-- Embedding of `extractBreedFromUrl`: on marker-present URLs take the
path segment after the marker (`.split("/")[0]`), split it on hyphens,
reverse, and re-join with spaces; when the marker is absent the undefined
access throws and the `catch` arm returns `"dog"`. -/
def extractBreedFromUrl (url : List Char) : List Char :=
  match afterMarker url with
  | none => "dog".data
  | some t =>
    let breedPart := (splitChar '/' t).headD []
    joinSpace (splitChar '-' breedPart).reverse

/-! ## Narration speed (`speak` line 166) -/

/-- Decimal value of a digit character. -/
def digitToNat (c : Char) : Nat := c.toNat - 48

/-- Leading decimal digits of a character list, as digit values, together
with the unconsumed remainder. -/
def takeDigits : List Char → List Nat × List Char
  | [] => ([], [])
  | c :: rest =>
    if c.isDigit then
      let (ds, r) := takeDigits rest
      (digitToNat c :: ds, r)
    else ([], c :: rest)

/-- Value of a list of decimal digit values. -/
def digitsVal (ds : List Nat) : Nat :=
  ds.foldl (fun a d => 10 * a + d) 0

/-- Embedding of `parseFloat` on the decimal fragment (optional leading
whitespace, optional sign, digits with an optional fraction part, trailing
junk ignored).  `none` models the `NaN` result on input with no leading
number; exponent notation and `Infinity` are outside the modelled fragment.
Rationals stand in for IEEE doubles: every value reachable here
(short decimal literals, `0.25`, `1.0`, `4.0`) is exactly representable, so
the arithmetic of the clamp is the same. -/
def parseFloatQ (s : List Char) : Option ℚ :=
  let l := s.dropWhile Char.isWhitespace
  let signed : ℚ × List Char :=
    match l with
    | '-' :: r => (-1, r)
    | '+' :: r => (1, r)
    | _ => (1, l)
  let (ds, l2) := takeDigits signed.2
  match l2 with
  | '.' :: r =>
    let (fs, _) := takeDigits r
    if ds = [] ∧ fs = [] then none
    else some (signed.1 * ((digitsVal ds : ℚ) + (digitsVal fs : ℚ) / (10 : ℚ) ^ fs.length))
  | _ => if ds = [] then none else some (signed.1 * (digitsVal ds : ℚ))

/-- Embedding of `Math.min` on the non-NaN arguments used here. -/
def jsMin (a b : ℚ) : ℚ := if a ≤ b then a else b

/-- Embedding of `Math.max` on the non-NaN arguments used here. -/
def jsMax (a b : ℚ) : ℚ := if a ≤ b then b else a

/-- The effective narration speed of `speak` (line 166):
`Math.min(4.0, Math.max(0.25, parseFloat(preferences.speed) || 1.0))`.
`parseFloat(x) || 1.0` replaces the falsy values `NaN`, `0` and `-0`
by `1.0`, which the `none`/zero branches render. -/
def effectiveSpeed (s : List Char) : ℚ :=
  jsMin 4 (jsMax (1/4)
    (match parseFloatQ s with
     | none => 1
     | some q => if q = 0 then 1 else q))

/-! ## The pipeline state model

React `useState` state of the `Command` component, threaded explicitly.
`files` models the set of temporary audio files currently on disk
(`fs.writeFile` inserts, `fs.unlink` removes). -/

/-- The voice-processing stage (`recordingStage` state, lines 149-151). -/
inductive Stage
  | idle
  | listening
  | processing
  | transcribing
  | searching
deriving DecidableEq, Repr

/-- The six TTS voices of the `voice` preference. -/
inductive Voice
  | alloy
  | echo
  | fable
  | onyx
  | nova
  | shimmer
deriving DecidableEq, Repr

/-- User preferences (the `Preferences` interface, lines 46-51).
`speed` is a free-form string, parsed by `speak`. -/
structure Preferences where
  openAiApiKey : String
  voice : Voice
  model : String
  speed : String

/-- The sample phrase played by `testCurrentVoice` (`VOICE_SAMPLES`). -/
def VOICE_SAMPLES : Voice → String
  | .alloy => "Hi! I am Alloy, a versatile and balanced voice."
  | .echo => "Hello there! I am Echo, with my deep and warm tone."
  | .fable => "Greetings! I am Fable, your British-accented storyteller."
  | .onyx => "Welcome! I am Onyx, with my deep and authoritative voice."
  | .nova => "Hi everyone! I am Nova, bringing energy and clarity."
  | .shimmer => "Hello! I am Shimmer, with my clear and youthful sound."

/-- The component state plus the on-disk temp files. -/
structure World where
  dogImage : Option String
  isLoading : Bool
  error : Option String
  isPlaying : Bool
  isRecording : Bool
  transcribedText : String
  noBreedFound : Option String
  recordingStage : Stage
  recordingTimeLeft : Nat
  audioLevel : String
  files : List String
deriving DecidableEq, Repr

/-- A narration failure: the synthesis call threw, or playback reported an
error to its callback. -/
inductive NarrationError
  | synthesis
  | playback
deriving DecidableEq, Repr

/-- A failure propagating out of `fetchDog`: the image fetch threw, or the
awaited `speak` call threw. -/
inductive FetchDogError
  | fetch
  | narration (e : NarrationError)
deriving DecidableEq, Repr

/-- A recording failure (`recordAudio` rejection). -/
inductive RecordingError
  | recording
deriving DecidableEq, Repr

/-- A transcription failure: the Whisper call or the GPT formatting call
threw (`TranscriptionError` / `FormattingError` of the spec). -/
inductive TranscriptionError
  | transcription
  | formatting
deriving DecidableEq, Repr

/-! ## Audio capture (`recordAudio`, lines 289-361) -/

/-- How the sox recorder process finishes: an `exit` event carrying an
optional exit code (`null` when the process was killed by a signal), or an
`error` event (spawn failure). -/
inductive RecEvent
  | exited (code : Option Int)
  | errored
deriving DecidableEq, Repr

/-- Embedding of the `recordAudio` promise resolution (lines 334-348):
exit code `0` or `null` resolves with the temp file path, any other exit
code or a process error rejects. -/
def recordAudio (tempFile : String) : RecEvent → Except RecordingError String
  | .exited code =>
    if code = some 0 ∨ code = none then .ok tempFile
    else .error .recording
  | .errored => .error .recording

/-- The exit event produced when the independent 7-second ceiling timer
fires and `recorder.kill("SIGTERM")` terminates the recorder (lines
350-355): a process terminated by a signal emits `exit` with a `null`
code, so the ceiling stop reaches `recordAudio`'s success branch. -/
def ceilingStopEvent : RecEvent := .exited none

/-! ## Narration (`speak`, lines 159-202) -/

/-- Embedding of `speak`.  Oracles: `synth` is the narration service
(success or throw, as a function of the requested speed), `playOk` the
audio player callback outcome, `tempFile` the timestamp-derived temp path.
On synthesis failure the `catch` block rethrows (line 198); the temp file
was never written.  On playback the callback unlinks the temp file whether
or not it reported an error, rejecting the promise on error.  The `finally`
resets `isPlaying`. -/
def speak (prefs : Preferences) (synth : ℚ → Bool) (playOk : Bool)
    (tempFile : String) (_text : String) (w : World) :
    World × Except NarrationError Unit :=
  let w := {w with isPlaying := true}
  let speed := effectiveSpeed prefs.speed.data
  if synth speed then
    let w := {w with files := tempFile :: w.files}
    let w := {w with files := w.files.erase tempFile}
    if playOk then ({w with isPlaying := false}, .ok ())
    else ({w with isPlaying := false}, .error .playback)
  else ({w with isPlaying := false}, .error .synthesis)

/-- Embedding of `testCurrentVoice` (lines 268-280): plays the sample for
the configured voice and, unlike the other callers, catches and logs any
narration failure, so it always returns normally. -/
def testCurrentVoice (prefs : Preferences) (synth : ℚ → Bool) (playOk : Bool)
    (tempFile : String) (w : World) : World :=
  let w := {w with isPlaying := true}
  let (w, _r) := speak prefs synth playOk tempFile (VOICE_SAMPLES prefs.voice) w
  {w with isPlaying := false}

/-! ## Image fetch (`fetchDog`, lines 210-262) -/

/-- The Dog CEO network as an oracle: `ok url` is the HTTP success bit of a
GET of `url`, `body url` the `message` field of its JSON body, and
`throws` models the fetch call rejecting (network failure). -/
structure Net where
  ok : String → Bool
  body : String → String
  throws : Bool

/-- The random-image endpoint (line 215). -/
def randomDogUrl : String := "https://dog.ceo/api/breeds/image/random"

/-- The breed-scoped endpoint built from a derived search path (lines
229-232); for a two-token path the source interpolates
`${searchTerm[1]}/${searchTerm[0]}`, which is exactly
`textToSearchPath`'s output. -/
def breedUrl (path : String) : String :=
  "https://dog.ceo/api/breed/" ++ path ++ "/images/random"

/-- The success tail of `fetchDog` (lines 247-255): fetch the image, show
it, clear `error`, then await the narration of phrase + breed label.  A
narration failure is rethrown by `fetchDog`'s catch block (line 258). -/
def fetchDogDisplay (url : String) (net : Net) (phrase : String)
    (synth : ℚ → Bool) (playOk : Bool) (tempFile : String)
    (prefs : Preferences) (w : World) : World × Except FetchDogError Unit :=
  let msg := net.body url
  let w := {w with dogImage := some msg, error := none}
  let breed := String.mk (extractBreedFromUrl msg.data)
  let (w, r) := speak prefs synth playOk tempFile (phrase ++ " " ++ breed) w
  match r with
  | .ok _ => ({w with isLoading := false}, .ok ())
  | .error e => ({w with isLoading := false}, .error (.narration e))

/-- Embedding of `fetchDog` (lines 210-262).  With a breed the search path
is derived and the breed URL probed first; a non-success probe sets the
`noBreedFound` message and returns normally (lines 239-244).  A network
throw is rethrown after the `finally` clears `isLoading`. -/
def fetchDog (specificBreed : Option String) (net : Net) (phrase : String)
    (synth : ℚ → Bool) (playOk : Bool) (tempFile : String)
    (prefs : Preferences) (w : World) : World × Except FetchDogError Unit :=
  let w := {w with isLoading := true, noBreedFound := none}
  if net.throws then ({w with isLoading := false}, .error .fetch)
  else
    match specificBreed with
    | some b =>
      let url := breedUrl (String.mk (textToSearchPath b.data))
      if net.ok url then
        fetchDogDisplay url net phrase synth playOk tempFile prefs w
      else
        ({w with noBreedFound := some ("Could not find breed \"" ++ b ++ "\""),
                 isLoading := false}, .ok ())
    | none => fetchDogDisplay randomDogUrl net phrase synth playOk tempFile prefs w

/-! ## Transcription (`speechToText`, lines 372-426) -/

/-- Embedding of `speechToText`.  The Whisper and GPT calls are a single
oracle producing either the formatted breed text or a failure; the
`finally` block unlinks the source recording on every path (line 424). -/
def speechToText (sttOut : Except TranscriptionError String)
    (audioFile : String) (w : World) :
    World × Except TranscriptionError String :=
  ({w with files := w.files.erase audioFile}, sttOut)

/-! ## The voice-search orchestrator (`handleVoiceSearch`, lines 437-478) -/

/-- The initial setup block of `handleVoiceSearch` (lines 440-448), run
before capture begins: clear the previous image, transcript and
breed-not-found message, then enter the `listening` stage.  The `error`
field is not touched; it is `none` whenever the action is reachable, since
a non-`none` `error` renders the separate error view (line 484). -/
def voiceSearchInit (w : World) : World :=
  {w with dogImage := none, transcribedText := "", noBreedFound := none,
          recordingStage := .listening, isLoading := false,
          isRecording := true, recordingTimeLeft := 7,
          audioLevel := "▁▁▁▁▁▁▁▁▁▁"}

/-- The catch block of `handleVoiceSearch` (lines 471-477). -/
def voiceSearchCatch (w : World) : World :=
  {w with recordingStage := .idle, isRecording := false,
          transcribedText := "Failed to process voice command"}

/-- The tail of `handleVoiceSearch` once a transcript `text` is available
(lines 463-470): show the transcript, enter `searching`, run the
breed-scoped fetch, and either finish in `idle` or fall into the catch
block when `fetchDog` rethrows. -/
def searchPhase (text : String) (net : Net) (phrase : String)
    (synth : ℚ → Bool) (playOk : Bool) (narrFile : String)
    (prefs : Preferences) (w : World) : World × List Stage :=
  let w := {w with transcribedText := "Heard: \"" ++ text ++ "\""}
  let w := {w with recordingStage := .searching}
  let (w, fr) := fetchDog (some text) net phrase synth playOk narrFile prefs w
  match fr with
  | .error _ =>
    (voiceSearchCatch w, [.listening, .processing, .transcribing, .searching, .idle])
  | .ok _ =>
    ({w with recordingStage := .idle},
     [.listening, .processing, .transcribing, .searching, .idle])

/-- Embedding of `handleVoiceSearch`.  Besides the final `World` it
returns the trace of `recordingStage` values set during the run, in order.
Oracles: the recorder exit event, the transcription outcome, the network,
the chosen phrase and the narration oracles.  On recorder success the sox
process has written the recording to disk. -/
def handleVoiceSearch (recFile : String) (recEvent : RecEvent)
    (sttOut : Except TranscriptionError String) (net : Net)
    (phrase : String) (synth : ℚ → Bool) (playOk : Bool)
    (narrFile : String) (prefs : Preferences) (w : World) :
    World × List Stage :=
  let w := voiceSearchInit w
  match recordAudio recFile recEvent with
  | .error _ => (voiceSearchCatch w, [.listening, .idle])
  | .ok audioFile =>
    let w := {w with files := audioFile :: w.files}
    let w := {w with isRecording := false, recordingStage := .processing,
                     transcribedText := "Processing your recording..."}
    let w := {w with recordingStage := .transcribing,
                     transcribedText := "Converting speech to text..."}
    let (w, tr) := speechToText sttOut audioFile w
    match tr with
    | .error _ => (voiceSearchCatch w, [.listening, .processing, .transcribing, .idle])
    | .ok text => searchPhase text net phrase synth playOk narrFile prefs w

/-! ## Concrete fixtures used to instantiate theorems with hypotheses -/

/-- A network oracle that always succeeds and always serves the same
Afghan-hound image. -/
def sampleNet : Net :=
  ⟨fun _ => true,
   fun _ => "https://images.dog.ceo/breeds/hound-afghan/n02088094_1003.jpg",
   false⟩

/-- Sample preferences. -/
def samplePrefs : Preferences := ⟨"key", .alloy, "tts-1", "1.0"⟩

/-- A state carrying stale values from an earlier search. -/
def sampleWorld : World :=
  ⟨some "old.jpg", false, none, false, false, "old text",
   some "old message", .idle, 7, "bar", []⟩

/-! # Theorems -/

/-! ## Library of small facts about the string primitives -/

theorem splitChar_ne_nil (sep : Char) (l : List Char) : splitChar sep l ≠ [] := by
  induction l with
  | nil => simp [splitChar]
  | cons c rest ih =>
    simp only [splitChar]
    split
    · simp
    · rcases h : splitChar sep rest with _ | ⟨t, ts⟩
      · simp
      · simp [h]

theorem mem_of_mem_splitChar {sep c : Char} {t l : List Char}
    (ht : t ∈ splitChar sep l) (hc : c ∈ t) : c ∈ l ∧ c ≠ sep := by
  induction l generalizing t with
  | nil =>
    simp [splitChar] at ht
    subst ht
    simp at hc
  | cons a rest ih =>
    simp only [splitChar] at ht
    by_cases ha : a = sep
    · rw [if_pos ha] at ht
      rcases List.mem_cons.mp ht with h | h
      · subst h; simp at hc
      · obtain ⟨h1, h2⟩ := ih h hc
        exact ⟨List.mem_cons_of_mem _ h1, h2⟩
    · rw [if_neg ha] at ht
      rcases hs : splitChar sep rest with _ | ⟨t', ts⟩
      · exact absurd hs (splitChar_ne_nil sep rest)
      · rw [hs] at ht
        rcases List.mem_cons.mp ht with h | h
        · subst h
          rcases List.mem_cons.mp hc with h | h
          · subst h; exact ⟨List.mem_cons_self _ _, ha⟩
          · obtain ⟨h1, h2⟩ := ih (hs ▸ List.mem_cons_self t' ts) h
            exact ⟨List.mem_cons_of_mem _ h1, h2⟩
        · obtain ⟨h1, h2⟩ := ih (hs ▸ List.mem_cons_of_mem t' h) hc
          exact ⟨List.mem_cons_of_mem _ h1, h2⟩

theorem splitChar_eq_single {sep : Char} {l : List Char} (h : sep ∉ l) :
    splitChar sep l = [l] := by
  induction l with
  | nil => simp [splitChar]
  | cons a rest ih =>
    have ha : ¬a = sep := fun hh => h (hh ▸ List.mem_cons_self a rest)
    have hrest : sep ∉ rest := fun hh => h (List.mem_cons_of_mem _ hh)
    simp only [splitChar, if_neg ha, ih hrest]

theorem splitChar_append {sep : Char} {xs ys : List Char} (h : sep ∉ xs) :
    splitChar sep (xs ++ sep :: ys) = xs :: splitChar sep ys := by
  induction xs with
  | nil => simp [splitChar]
  | cons a rest ih =>
    have ha : ¬a = sep := fun hh => h (hh ▸ List.mem_cons_self a rest)
    have hrest : sep ∉ rest := fun hh => h (List.mem_cons_of_mem _ hh)
    simp only [List.cons_append, splitChar, if_neg ha, List.append_eq, ih hrest]

theorem mem_trimL {c : Char} {l : List Char} (h : c ∈ trimL l) : c ∈ l := by
  unfold trimL at h
  rw [List.mem_reverse] at h
  have h1 := (List.dropWhile_suffix (l := (l.dropWhile Char.isWhitespace).reverse)
    Char.isWhitespace).subset h
  rw [List.mem_reverse] at h1
  exact (List.dropWhile_suffix Char.isWhitespace).subset h1

theorem mem_stripPunct {c : Char} {l : List Char} (h : c ∈ stripPunct l) :
    c ∈ l ∧ punctChars.contains c = false := by
  unfold stripPunct at h
  have := List.mem_filter.mp h
  simpa using this

theorem toLower_not_upper (c : Char) :
    ¬(65 ≤ (Char.toLower c).toNat ∧ (Char.toLower c).toNat ≤ 90) := by
  simp only [Char.toLower]
  by_cases h : c.toNat ≥ 65 ∧ c.toNat ≤ 90
  · rw [if_pos h]
    obtain ⟨h1, h2⟩ := h
    generalize hn : c.toNat = n at h1 h2 ⊢
    interval_cases n <;> decide
  · rw [if_neg h]
    exact fun hc => h ⟨hc.1, hc.2⟩

theorem toLower_eq_self {c : Char} (h : ¬(65 ≤ c.toNat ∧ c.toNat ≤ 90)) :
    Char.toLower c = c := by
  simp only [Char.toLower]
  exact if_neg fun hc => h ⟨hc.1, hc.2⟩

theorem mem_textToSearchPath {c : Char} {s : List Char}
    (h : c ∈ textToSearchPath s) :
    c = '/' ∨ (c ∈ s.map Char.toLower ∧ punctChars.contains c = false ∧ c ≠ ' ') := by
  have key : ∀ t, t ∈ searchTokens s → c ∈ t →
      c ∈ s.map Char.toLower ∧ punctChars.contains c = false ∧ c ≠ ' ' := by
    intro t ht hc
    obtain ⟨h1, h2⟩ := mem_of_mem_splitChar ht hc
    obtain ⟨h3, h4⟩ := mem_stripPunct (mem_trimL h1)
    exact ⟨h3, h4, h2⟩
  unfold textToSearchPath at h
  rcases hs : searchTokens s with _ | ⟨t0, _ | ⟨t1, ts⟩⟩
  · rw [hs] at h; simp at h
  · rw [hs] at h
    exact Or.inr (key t0 (hs ▸ List.mem_cons_self _ _) h)
  · rcases ts with _ | ⟨t2, ts'⟩
    · rw [hs] at h
      rcases List.mem_append.mp h with h | h
      · exact Or.inr (key t1 (hs ▸ List.mem_cons_of_mem _ (List.mem_cons_self _ _)) h)
      · rcases List.mem_cons.mp h with h | h
        · exact Or.inl h
        · exact Or.inr (key t0 (hs ▸ List.mem_cons_self _ _) h)
    · rw [hs] at h
      exact Or.inr (key t0 (hs ▸ List.mem_cons_self _ _) h)

theorem textToSearchPath_no_space {s : List Char} : ' ' ∉ textToSearchPath s := by
  intro h
  rcases mem_textToSearchPath h with h | ⟨_, _, h⟩
  · exact absurd h (by decide)
  · exact h rfl

theorem textToSearchPath_no_punct {c : Char} {s : List Char}
    (hc : c ∈ textToSearchPath s) : punctChars.contains c = false := by
  rcases mem_textToSearchPath hc with h | ⟨_, h, _⟩
  · subst h; decide
  · exact h

theorem textToSearchPath_lower {c : Char} {s : List Char}
    (hc : c ∈ textToSearchPath s) : ¬(65 ≤ c.toNat ∧ c.toNat ≤ 90) := by
  rcases mem_textToSearchPath hc with h | ⟨h, _, _⟩
  · subst h; decide
  · obtain ⟨d, _, hd⟩ := List.mem_map.mp h
    exact hd ▸ toLower_not_upper d

theorem textToSearchPath_twice (s : List Char) :
    textToSearchPath (textToSearchPath s) = trimL (textToSearchPath s) := by
  set out := textToSearchPath s with hout
  have hmap : out.map Char.toLower = out := by
    have h : ∀ c ∈ out, Char.toLower c = c := fun c hc =>
      toLower_eq_self (textToSearchPath_lower (hout ▸ hc))
    calc out.map Char.toLower = out.map id := List.map_congr_left h
    _ = out := List.map_id out
  have hstrip : stripPunct out = out := by
    unfold stripPunct
    rw [List.filter_eq_self]
    intro a ha
    rw [textToSearchPath_no_punct (hout ▸ ha)]
    rfl
  have hnospace : ' ' ∉ trimL out := fun h =>
    textToSearchPath_no_space (hout ▸ mem_trimL h)
  have htok : searchTokens out = [trimL out] := by
    rw [searchTokens, hmap, hstrip, splitChar_eq_single hnospace]
  simp only [textToSearchPath, htok]

/-! ## Marker facts for `extractBreedFromUrl` -/

theorem afterMarker_eq_none {l : List Char} (h : hasMarker l = false) :
    afterMarker l = none := by
  induction l with
  | nil => rfl
  | cons c rest ih =>
    rw [hasMarker, Bool.or_eq_false_iff] at h
    simp only [afterMarker]
    rw [if_neg (by simp [h.1]), ih h.2]

theorem afterMarker_cons_pos {l : List Char} (hne : l ≠ [])
    (h : markerL.isPrefixOf l = true) :
    afterMarker l = some (l.drop markerL.length) := by
  cases l with
  | nil => exact absurd rfl hne
  | cons c rest => simp only [afterMarker, if_pos h]

theorem afterMarker_cons_neg {c : Char} {rest : List Char}
    (h : markerL.isPrefixOf (c :: rest) = false) :
    afterMarker (c :: rest) = afterMarker rest := by
  simp only [afterMarker]
  rw [if_neg (by simp [h])]

theorem noOverlap_of_cons {a : Char} {p : List Char}
    (h : noOverlap (a :: p) = true) : noOverlap p = true := by
  rw [noOverlap, List.all_eq_true] at h ⊢
  intro i hi
  rcases Bool.or_eq_true_iff.mp (h i hi) with h0 | h1
  · exact Bool.or_eq_true_iff.mpr (Or.inl h0)
  · refine Bool.or_eq_true_iff.mpr (Or.inr ?_)
    rw [Bool.not_eq_true'] at h1 ⊢
    by_contra hc
    rw [Bool.not_eq_false, List.isSuffixOf_iff_suffix] at hc
    have : (markerL.take i).isSuffixOf (a :: p) = true := by
      rw [List.isSuffixOf_iff_suffix]
      exact hc.trans (List.suffix_cons a p)
    rw [this] at h1
    cases h1

theorem afterMarker_append {p rest : List Char}
    (hm : hasMarker p = false) (ho : noOverlap p = true) :
    afterMarker (p ++ markerL ++ rest) = some rest := by
  induction p with
  | nil =>
    simp only [List.nil_append]
    have hne : markerL ++ rest ≠ [] := by simp [markerL]
    have hpre : markerL.isPrefixOf (markerL ++ rest) = true := by
      rw [List.isPrefixOf_iff_prefix]
      exact List.prefix_append _ _
    rw [afterMarker_cons_pos hne hpre, List.drop_left]
  | cons a p ih =>
    rw [hasMarker, Bool.or_eq_false_iff] at hm
    have hneg : markerL.isPrefixOf (a :: p ++ markerL ++ rest) = false := by
      by_contra hc
      rw [Bool.not_eq_false, List.isPrefixOf_iff_prefix] at hc
      rw [show (a :: p) ++ markerL ++ rest = (a :: p) ++ (markerL ++ rest) by
        simp [List.append_assoc]] at hc
      by_cases hlen : markerL.length ≤ (a :: p).length
      · have : markerL <+: (a :: p) :=
          List.prefix_of_prefix_length_le hc (List.prefix_append _ _) hlen
        rw [← List.isPrefixOf_iff_prefix] at this
        rw [this] at hm
        exact absurd hm.1 (by simp)
      · push_neg at hlen
        have hsp : (a :: p) <+: markerL :=
          List.prefix_of_prefix_length_le (List.prefix_append _ _) hc
            (Nat.le_of_lt hlen)
        have htake : a :: p = markerL.take (a :: p).length :=
          List.prefix_iff_eq_take.mp hsp
        rw [noOverlap, List.all_eq_true] at ho
        have hk := ho (a :: p).length (by rw [List.mem_range]; exact hlen)
        rcases Bool.or_eq_true_iff.mp hk with h0 | h1
        · simp at h0
        · rw [Bool.not_eq_true', ← htake] at h1
          have : (a :: p).isSuffixOf (a :: p) = true := by
            rw [List.isSuffixOf_iff_suffix]
          rw [this] at h1
          cases h1
    calc afterMarker ((a :: p) ++ markerL ++ rest)
        = afterMarker (a :: (p ++ markerL ++ rest)) := by
          simp [List.cons_append]
      _ = afterMarker (p ++ markerL ++ rest) := afterMarker_cons_neg (by
          simpa [List.cons_append] using hneg)
      _ = some rest := ih hm.2 (noOverlap_of_cons ho)

/-! ## Claim theorems -/

/-- C1: the breed search path derived from free text is deterministic in the
input (it is a pure function of the token list obtained by lowercasing,
stripping the `[.,!?]` punctuation, trimming and splitting at spaces): for
exactly two tokens the path is `tokens[1] ++ "/" ++ tokens[0]`, for every
other token count it is the first token alone; `"Golden Retriever"` maps to
`"retriever/golden"`, `"Husky"` to `"husky"`, and the four-token
`"Very Long Three Word"` to `"very"`. -/
theorem c1_breed_search_path :
    (∀ s t0 t1, searchTokens s = [t0, t1] →
      textToSearchPath s = t1 ++ '/' :: t0) ∧
    (∀ s, (searchTokens s).length ≠ 2 →
      textToSearchPath s = (searchTokens s).headD []) ∧
    textToSearchPath "Golden Retriever".data = "retriever/golden".data ∧
    textToSearchPath "Husky".data = "husky".data ∧
    textToSearchPath "Very Long Three Word".data = "very".data := by
  refine ⟨?_, ?_, by decide, by decide, by decide⟩
  · intro s t0 t1 h
    simp [textToSearchPath, h]
  · intro s h
    rcases hs : searchTokens s with _ | ⟨t0, _ | ⟨t1, ts⟩⟩
    · rw [searchTokens] at hs
      exact absurd hs (splitChar_ne_nil _ _)
    · simp [textToSearchPath, hs]
    · rcases ts with _ | ⟨t2, ts'⟩
      · rw [hs] at h; simp at h
      · simp [textToSearchPath, hs]

/-- Witness for C1 at concrete inputs. -/
theorem c1_breed_search_path_witness :
    (searchTokens "Golden Retriever".data = ["golden".data, "retriever".data] ∧
     textToSearchPath "Golden Retriever".data
       = "retriever".data ++ '/' :: "golden".data) ∧
    ((searchTokens "Husky".data).length ≠ 2 ∧
     textToSearchPath "Husky".data = (searchTokens "Husky".data).headD []) :=
  ⟨⟨by decide, c1_breed_search_path.1 _ _ _ (by decide)⟩,
   ⟨by decide, c1_breed_search_path.2.1 _ (by decide)⟩⟩

/-- C8 counterexample: the claim promises an always punctuation-free output
and idempotence on the function's own two-segment output, but the code only
strips `.,!?`, so `';'` survives into the output of `"Dober;man"`; and for
`"a\t b"` the two-segment output `"b/a\t"` is not a fixed point, because
the re-application trims the interior tab once it reaches the edge. -/
theorem c8_counterexample :
    ';' ∈ textToSearchPath "Dober;man".data ∧
    textToSearchPath (textToSearchPath "a\t b".data)
      ≠ textToSearchPath "a\t b".data := by
  decide

/-- C8 (amended): the output of `textToSearchPath` never contains the
stripped punctuation characters `.,!?`, never contains an ASCII uppercase
letter, and never contains a space; re-applying the function returns the
trimmed output, hence the function is idempotent on every output that does
not begin or end with whitespace (in particular on ordinary
`"sub/main"` outputs). -/
theorem c8_amended_normalization :
    (∀ s c, c ∈ textToSearchPath s → punctChars.contains c = false) ∧
    (∀ s c, c ∈ textToSearchPath s → ¬(65 ≤ c.toNat ∧ c.toNat ≤ 90)) ∧
    (∀ s, ' ' ∉ textToSearchPath s) ∧
    (∀ s, textToSearchPath (textToSearchPath s) = trimL (textToSearchPath s)) ∧
    (∀ s, trimL (textToSearchPath s) = textToSearchPath s →
      textToSearchPath (textToSearchPath s) = textToSearchPath s) :=
  ⟨fun _ _ h => textToSearchPath_no_punct h,
   fun _ _ h => textToSearchPath_lower h,
   fun _ => textToSearchPath_no_space,
   textToSearchPath_twice,
   fun s h => (textToSearchPath_twice s).trans h⟩

/-- Witness for the amended C8 at a concrete input. -/
theorem c8_amended_normalization_witness :
    ('r' ∈ textToSearchPath "Golden Retriever".data ∧
     punctChars.contains 'r' = false ∧
     ¬(65 ≤ 'r'.toNat ∧ 'r'.toNat ≤ 90)) ∧
    (trimL (textToSearchPath "Golden Retriever".data)
       = textToSearchPath "Golden Retriever".data ∧
     textToSearchPath (textToSearchPath "Golden Retriever".data)
       = textToSearchPath "Golden Retriever".data) :=
  ⟨⟨by decide,
    c8_amended_normalization.1 "Golden Retriever".data 'r' (by decide),
    c8_amended_normalization.2.1 "Golden Retriever".data 'r' (by decide)⟩,
   ⟨by decide,
    c8_amended_normalization.2.2.2.2 "Golden Retriever".data (by decide)⟩⟩

/-- C2: for every URL containing the `"/breeds/"` marker,
`extractBreedFromUrl` returns the path segment after the marker with its
hyphen-separated tokens reversed and re-joined with spaces; for every URL
without the marker (where the JavaScript code throws on the undefined
split component and lands in the `catch`) it returns exactly `"dog"`.  The
Lean embedding is total by construction, matching the source function,
which never propagates an error.  The second conjunct states the
marker-present case for every canonically decomposed URL. -/
theorem c2_extract_breed :
    (∀ url, hasMarker url = false → extractBreedFromUrl url = "dog".data) ∧
    (∀ pre bp fname, hasMarker pre = false → noOverlap pre = true →
      '/' ∉ bp →
      extractBreedFromUrl (pre ++ markerL ++ bp ++ '/' :: fname) =
        joinSpace (splitChar '-' bp).reverse) ∧
    extractBreedFromUrl
        "https://images.dog.ceo/breeds/hound-afghan/n02088094_1003.jpg".data
      = "afghan hound".data ∧
    extractBreedFromUrl "https://example.com/cats/tabby.jpg".data
      = "dog".data := by
  refine ⟨?_, ?_, by decide, by decide⟩
  · intro url h
    simp [extractBreedFromUrl, afterMarker_eq_none h]
  · intro pre bp fname hm ho hbp
    have h1 : afterMarker (pre ++ markerL ++ (bp ++ '/' :: fname))
        = some (bp ++ '/' :: fname) := afterMarker_append hm ho
    rw [show pre ++ markerL ++ bp ++ '/' :: fname
        = pre ++ markerL ++ (bp ++ '/' :: fname) by simp [List.append_assoc]]
    simp only [extractBreedFromUrl, h1]
    rw [splitChar_append hbp]
    rfl

/-- Witness for C2 at concrete inputs. -/
theorem c2_extract_breed_witness :
    (hasMarker "https://example.com/x.png".data = false ∧
     extractBreedFromUrl "https://example.com/x.png".data = "dog".data) ∧
    (hasMarker "https://images.dog.ceo".data = false ∧
     noOverlap "https://images.dog.ceo".data = true ∧
     '/' ∉ "hound-afghan".data ∧
     extractBreedFromUrl ("https://images.dog.ceo".data ++ markerL
         ++ "hound-afghan".data ++ '/' :: "n.jpg".data)
       = joinSpace (splitChar '-' "hound-afghan".data).reverse) :=
  ⟨⟨by decide, c2_extract_breed.1 _ (by decide)⟩,
   ⟨by decide, by decide, by decide,
    c2_extract_breed.2.1 _ _ _ (by decide) (by decide) (by decide)⟩⟩

/-! ## Narration speed claims -/

theorem digitToNat_zero : digitToNat '0' = 0 := by decide

theorem digitToNat_one : digitToNat '1' = 1 := by decide

theorem jsClamp_bounds (v : ℚ) :
    1/4 ≤ jsMin 4 (jsMax (1/4) v) ∧ jsMin 4 (jsMax (1/4) v) ≤ 4 := by
  unfold jsMin jsMax
  split_ifs <;> constructor <;> linarith

/-- C7: the narration speed is the preference string parsed as a number,
defaulted to `1.0` when non-numeric, then clamped to `[0.25, 4.0]`:
`"10"` yields `4.0`, `"abc"` yields `1.0`, `"0.1"` yields `0.25`; the
result always lies in the clamp interval. -/
theorem c7_speed_clamp :
    effectiveSpeed "10".data = 4 ∧
    effectiveSpeed "abc".data = 1 ∧
    effectiveSpeed "0.1".data = 1/4 ∧
    (∀ s, parseFloatQ s = none → effectiveSpeed s = 1) ∧
    (∀ s, 1/4 ≤ effectiveSpeed s ∧ effectiveSpeed s ≤ 4) := by
  refine ⟨?_, ?_, ?_, ?_, ?_⟩
  · norm_num +decide [effectiveSpeed, parseFloatQ, takeDigits, digitsVal,
      digitToNat_zero, digitToNat_one, jsMin, jsMax, List.dropWhile,
      Char.isWhitespace, Char.isDigit]
  · norm_num +decide [effectiveSpeed, parseFloatQ, takeDigits, digitsVal,
      jsMin, jsMax, List.dropWhile, Char.isWhitespace, Char.isDigit]
  · norm_num +decide [effectiveSpeed, parseFloatQ, takeDigits, digitsVal,
      digitToNat_zero, digitToNat_one, jsMin, jsMax, List.dropWhile,
      Char.isWhitespace, Char.isDigit]
  · intro s h
    simp only [effectiveSpeed, h]
    norm_num [jsMin, jsMax]
  · intro s
    exact jsClamp_bounds _

/-- Witness for C7: the defaulting branch applied at `"abc"`. -/
theorem c7_speed_clamp_witness :
    parseFloatQ "abc".data = none ∧ effectiveSpeed "abc".data = 1 :=
  ⟨by decide, c7_speed_clamp.2.2.2.1 "abc".data (by decide)⟩

/-- C10: the speed preference `"0"` parses to the number `0`, which is
falsy in JavaScript, so `parseFloat(speed) || 1.0` falls back to the
default `1.0` rather than clamping to the lower bound `0.25`. -/
theorem c10_zero_speed_default :
    parseFloatQ "0".data = some 0 ∧
    effectiveSpeed "0".data = 1 ∧
    effectiveSpeed "0".data ≠ 1/4 := by
  have h1 : parseFloatQ "0".data = some 0 := by
    norm_num +decide [parseFloatQ, takeDigits, digitsVal, digitToNat_zero,
      List.dropWhile, Char.isWhitespace, Char.isDigit]
  have h2 : effectiveSpeed "0".data = 1 := by
    norm_num +decide [effectiveSpeed, parseFloatQ, takeDigits, digitsVal,
      digitToNat_zero, jsMin, jsMax, List.dropWhile, Char.isWhitespace,
      Char.isDigit]
  exact ⟨h1, h2, by rw [h2]; norm_num⟩

/-! ## Characterizations of the stateful operations -/

theorem speak_eq (prefs : Preferences) (synth : ℚ → Bool) (playOk : Bool)
    (tempFile text : String) (w : World) :
    speak prefs synth playOk tempFile text w =
      ({w with isPlaying := false,
               files := if synth (effectiveSpeed prefs.speed.data)
                        then (tempFile :: w.files).erase tempFile
                        else w.files},
       if synth (effectiveSpeed prefs.speed.data)
       then (if playOk then .ok () else .error .playback)
       else .error .synthesis) := by
  simp only [speak]
  split_ifs <;> rfl

theorem speak_files (prefs : Preferences) (synth : ℚ → Bool) (playOk : Bool)
    (tempFile text : String) (w : World) :
    ((speak prefs synth playOk tempFile text w).1).files = w.files := by
  rw [speak_eq]
  split_ifs <;> simp [List.erase_cons_head]

theorem fetchDog_throws {specificBreed : Option String} {net : Net}
    {phrase : String} {synth : ℚ → Bool} {playOk : Bool}
    {tempFile : String} {prefs : Preferences} {w : World}
    (h : net.throws = true) :
    fetchDog specificBreed net phrase synth playOk tempFile prefs w =
      ({w with isLoading := false, noBreedFound := none}, .error .fetch) := by
  simp only [fetchDog, h]
  rfl

theorem fetchDog_notFound {b : String} {net : Net} {phrase : String}
    {synth : ℚ → Bool} {playOk : Bool} {tempFile : String}
    {prefs : Preferences} {w : World}
    (h : net.throws = false)
    (hok : net.ok (breedUrl (String.mk (textToSearchPath b.data))) = false) :
    fetchDog (some b) net phrase synth playOk tempFile prefs w =
      ({w with isLoading := false,
               noBreedFound := some ("Could not find breed \"" ++ b ++ "\"")},
       .ok ()) := by
  simp only [fetchDog, h, hok]
  rfl

theorem fetchDog_breed_ok {b : String} {net : Net} {phrase : String}
    {synth : ℚ → Bool} {playOk : Bool} {tempFile : String}
    {prefs : Preferences} {w : World}
    (h : net.throws = false)
    (hok : net.ok (breedUrl (String.mk (textToSearchPath b.data))) = true) :
    fetchDog (some b) net phrase synth playOk tempFile prefs w =
      ({w with isLoading := false, noBreedFound := none,
               dogImage :=
                 some (net.body (breedUrl (String.mk (textToSearchPath b.data)))),
               error := none, isPlaying := false, files := w.files},
       if synth (effectiveSpeed prefs.speed.data)
       then (if playOk then .ok () else .error (.narration .playback))
       else .error (.narration .synthesis)) := by
  simp only [fetchDog, fetchDogDisplay, h, hok, speak_eq, Bool.false_eq_true,
    reduceIte]
  split_ifs <;> simp [List.erase_cons_head]

theorem fetchDog_random {net : Net} {phrase : String} {synth : ℚ → Bool}
    {playOk : Bool} {tempFile : String} {prefs : Preferences} {w : World}
    (h : net.throws = false) :
    fetchDog none net phrase synth playOk tempFile prefs w =
      ({w with isLoading := false, noBreedFound := none,
               dogImage := some (net.body randomDogUrl),
               error := none, isPlaying := false, files := w.files},
       if synth (effectiveSpeed prefs.speed.data)
       then (if playOk then .ok () else .error (.narration .playback))
       else .error (.narration .synthesis)) := by
  simp only [fetchDog, fetchDogDisplay, h, speak_eq, Bool.false_eq_true,
    reduceIte]
  split_ifs <;> simp [List.erase_cons_head]

/-- C5: temp audio files are deleted on every exit path.  After any `speak`
call (synthesis failure, playback failure, or success) the narration temp
file is not on disk: on the synthesis-failure path it was never written,
and on every playback path the callback unlinks it before the promise
settles.  After any `speechToText` call (success or failure) the source
recording is not on disk: the `finally` block unlinks it.  The freshness
hypotheses say the timestamp-derived path is not already occupied (for the
recording, not occupied twice). -/
theorem c5_tempfile_cleanup :
    (∀ prefs synth playOk tempFile text w, tempFile ∉ w.files →
      tempFile ∉ ((speak prefs synth playOk tempFile text w).1).files) ∧
    (∀ sttOut audioFile w, w.files.count audioFile ≤ 1 →
      audioFile ∉ ((speechToText sttOut audioFile w).1).files) := by
  constructor
  · intro prefs synth playOk tempFile text w h
    rw [speak_files]
    exact h
  · intro sttOut audioFile w h
    show audioFile ∉ w.files.erase audioFile
    rw [← List.count_eq_zero]
    have := List.count_erase_self audioFile w.files
    omega

/-- Witness for C5 at a concrete state. -/
theorem c5_tempfile_cleanup_witness :
    ("t.mp3" ∉ sampleWorld.files ∧
     "t.mp3" ∉ ((speak samplePrefs (fun _ => true) true "t.mp3" "hi"
        sampleWorld).1).files) ∧
    (sampleWorld.files.count "r.wav" ≤ 1 ∧
     "r.wav" ∉ ((speechToText (.ok "husky") "r.wav" sampleWorld).1).files) :=
  ⟨⟨by decide, c5_tempfile_cleanup.1 _ _ _ _ _ _ (by decide)⟩,
   ⟨by decide, c5_tempfile_cleanup.2 _ _ _ (by decide)⟩⟩

/-- C6: `recordAudio` resolves with the recording path exactly on exit code
`0` or a missing exit code (both treated as normal completion), rejects on
any nonzero exit code or spawn error, and the 7-second ceiling stop — a
SIGTERM-killed process reports a `null` exit code — takes the same success
path as a natural silence-triggered stop (exit code `0`). -/
theorem c6_record_exit_paths :
    (∀ f, recordAudio f (.exited (some 0)) = .ok f) ∧
    (∀ f, recordAudio f (.exited none) = .ok f) ∧
    (∀ f c, c ≠ 0 → recordAudio f (.exited (some c)) = .error .recording) ∧
    (∀ f, recordAudio f .errored = .error .recording) ∧
    (∀ f, recordAudio f ceilingStopEvent = recordAudio f (.exited (some 0))) := by
  refine ⟨fun f => by simp [recordAudio], fun f => by simp [recordAudio],
    ?_, fun f => rfl, fun f => by simp [recordAudio, ceilingStopEvent]⟩
  intro f c hc
  simp [recordAudio, hc]

/-- Witness for C6: a nonzero exit code rejects. -/
theorem c6_record_exit_paths_witness :
    (1 : Int) ≠ 0 ∧
    recordAudio "rec.wav" (.exited (some 1)) = .error .recording :=
  ⟨by decide, c6_record_exit_paths.2.2.1 "rec.wav" 1 (by decide)⟩

/-- C9: the setup block `handleVoiceSearch` runs before capture begins
clears the prior dog image, the prior transcript text, and the prior
breed-not-found error message, and sets the stage to `listening`.  The
separate `error` field is untouched by the block, but it is necessarily
`none` already: a non-`none` `error` renders the error view, in which the
voice-search action does not exist. -/
theorem c9_voice_search_init :
    ∀ w : World, w.error = none →
      (voiceSearchInit w).dogImage = none ∧
      (voiceSearchInit w).transcribedText = "" ∧
      (voiceSearchInit w).noBreedFound = none ∧
      (voiceSearchInit w).error = none ∧
      (voiceSearchInit w).recordingStage = .listening ∧
      (voiceSearchInit w).isRecording = true := by
  intro w h
  simp [voiceSearchInit, h]

/-- Witness for C9 at a state holding stale values. -/
theorem c9_voice_search_init_witness :
    sampleWorld.error = none ∧
    (voiceSearchInit sampleWorld).dogImage = none ∧
    (voiceSearchInit sampleWorld).recordingStage = .listening :=
  ⟨by decide, (c9_voice_search_init sampleWorld (by decide)).1,
   (c9_voice_search_init sampleWorld (by decide)).2.2.2.2.1⟩

theorem searchPhase_narr_proj {b : String} {net : Net} {phrase : String}
    {synth : ℚ → Bool} {playOk : Bool} {narrFile : String}
    {prefs : Preferences}
    (hthrows : net.throws = false)
    (hok : net.ok (breedUrl (String.mk (textToSearchPath b.data))) = true)
    (hnarr : synth (effectiveSpeed prefs.speed.data) = false ∨ playOk = false)
    (w : World) :
    ((searchPhase b net phrase synth playOk narrFile prefs w).1).recordingStage
        = .idle ∧
    ((searchPhase b net phrase synth playOk narrFile prefs w).1).transcribedText
        = "Failed to process voice command" ∧
    ((searchPhase b net phrase synth playOk narrFile prefs w).1).dogImage
        = some (net.body (breedUrl (String.mk (textToSearchPath b.data)))) := by
  simp only [searchPhase]
  rw [fetchDog_breed_ok hthrows hok]
  rcases hnarr with h | h
  · simp [h, voiceSearchCatch]
  · by_cases hs : synth (effectiveSpeed prefs.speed.data)
    · simp [hs, h, voiceSearchCatch]
    · simp [hs, voiceSearchCatch]

theorem handleVoiceSearch_to_searchPhase (recFile : String)
    (recEvent : RecEvent) (b : String) (net : Net) (phrase : String)
    (synth : ℚ → Bool) (playOk : Bool) (narrFile : String)
    (prefs : Preferences) (w : World)
    (hrec : recordAudio recFile recEvent = .ok recFile) :
    ∃ w', handleVoiceSearch recFile recEvent (.ok b) net phrase synth playOk
        narrFile prefs w
      = searchPhase b net phrase synth playOk narrFile prefs w' :=
  ⟨_, by simp only [handleVoiceSearch, hrec, speechToText]; rfl⟩

/-- C3 counterexample: with every oracle succeeding except audio playback,
the narration error escapes `fetchDog` — `speak`'s catch block rethrows
(line 198) and `fetchDog`'s catch block rethrows (line 258) — so narration
failures are not swallowed by the callers; and the surrounding voice-search
run then ends in the generic `"Failed to process voice command"` handler,
exactly like a capture, transcription or fetch failure, refuting that only
those three failure kinds abort the run. -/
theorem c3_counterexample :
    (fetchDog (some "husky") sampleNet "Look at this adorable"
        (fun _ => true) false "t.mp3" samplePrefs sampleWorld).2
      = .error (.narration .playback) ∧
    ((handleVoiceSearch "r.wav" (.exited (some 0)) (.ok "husky") sampleNet
        "Look at this adorable" (fun _ => true) false "t.mp3" samplePrefs
        sampleWorld).1).transcribedText
      = "Failed to process voice command" := by
  constructor <;> rfl

/-- C3 (amended): narration failures are rethrown by `speak` and
propagated by `fetchDog`; within a voice-search run the top-level handler
catches them and ends the run with the generic failure message and an
`idle` stage — but the already-fetched image remains displayed; only
`testCurrentVoice` catches and swallows narration failures, returning
normally (it produces a plain state, no error channel). -/
theorem c3_narration_failure_paths :
    ∀ (b recFile : String) (recEvent : RecEvent) (net : Net)
      (phrase : String) (synth : ℚ → Bool) (playOk : Bool)
      (narrFile : String) (prefs : Preferences) (w : World),
    net.throws = false →
    net.ok (breedUrl (String.mk (textToSearchPath b.data))) = true →
    (synth (effectiveSpeed prefs.speed.data) = false ∨ playOk = false) →
    ((∃ e, (fetchDog (some b) net phrase synth playOk narrFile prefs w).2
        = .error (.narration e)) ∧
     ((fetchDog (some b) net phrase synth playOk narrFile prefs w).1).dogImage
        = some (net.body (breedUrl (String.mk (textToSearchPath b.data)))) ∧
     (recordAudio recFile recEvent = .ok recFile →
       ((handleVoiceSearch recFile recEvent (.ok b) net phrase synth playOk
           narrFile prefs w).1).recordingStage = .idle ∧
       ((handleVoiceSearch recFile recEvent (.ok b) net phrase synth playOk
           narrFile prefs w).1).transcribedText
         = "Failed to process voice command" ∧
       ((handleVoiceSearch recFile recEvent (.ok b) net phrase synth playOk
           narrFile prefs w).1).dogImage
         = some (net.body (breedUrl (String.mk (textToSearchPath b.data))))) ∧
     (∀ temp w2,
       (testCurrentVoice prefs synth playOk temp w2).isPlaying = false)) := by
  intro b recFile recEvent net phrase synth playOk narrFile prefs w
  intro hthrows hok hnarr
  have herr : ∀ w' : World,
      ∃ e, (fetchDog (some b) net phrase synth playOk narrFile prefs w').2
        = .error (.narration e) := by
    intro w'
    rw [fetchDog_breed_ok hthrows hok]
    rcases hnarr with h | h
    · exact ⟨.synthesis, by simp [h]⟩
    · by_cases hs : synth (effectiveSpeed prefs.speed.data)
      · exact ⟨.playback, by simp [hs, h]⟩
      · exact ⟨.synthesis, by simp [hs]⟩
  have himg : ∀ w' : World,
      ((fetchDog (some b) net phrase synth playOk narrFile prefs w').1).dogImage
        = some (net.body (breedUrl (String.mk (textToSearchPath b.data)))) := by
    intro w'
    rw [fetchDog_breed_ok hthrows hok]
  refine ⟨herr w, himg w, ?_, ?_⟩
  · intro hrec
    obtain ⟨w', hw'⟩ := handleVoiceSearch_to_searchPhase recFile recEvent b
      net phrase synth playOk narrFile prefs w hrec
    rw [hw']
    exact searchPhase_narr_proj hthrows hok hnarr w'
  · intro temp w2
    simp only [testCurrentVoice, speak_eq]

/-- Witness for the amended C3 with concrete oracles (playback fails). -/
theorem c3_narration_failure_paths_witness :
    sampleNet.throws = false ∧
    ((handleVoiceSearch "r.wav" (.exited (some 0)) (.ok "husky") sampleNet
        "p" (fun _ => true) false "t.mp3" samplePrefs
        sampleWorld).1).recordingStage = .idle ∧
    ((handleVoiceSearch "r.wav" (.exited (some 0)) (.ok "husky") sampleNet
        "p" (fun _ => true) false "t.mp3" samplePrefs
        sampleWorld).1).dogImage
      = some (sampleNet.body
          (breedUrl (String.mk (textToSearchPath "husky".data)))) := by
  have h := (c3_narration_failure_paths "husky" "r.wav" (.exited (some 0))
    sampleNet "p" (fun _ => true) false "t.mp3" samplePrefs sampleWorld
    rfl rfl (Or.inr rfl)).2.2.1 rfl
  exact ⟨rfl, h.1, h.2.2⟩

/-! ## C4: stage discipline of the orchestrator -/

theorem searchPhase_stage_trace (text : String) (net : Net)
    (phrase : String) (synth : ℚ → Bool) (playOk : Bool)
    (narrFile : String) (prefs : Preferences) (w : World) :
    ((searchPhase text net phrase synth playOk narrFile prefs w).1).recordingStage
        = .idle ∧
    (searchPhase text net phrase synth playOk narrFile prefs w).2
        = [.listening, .processing, .transcribing, .searching, .idle] := by
  simp only [searchPhase]
  cases ht : net.throws
  · cases hok : net.ok (breedUrl (String.mk (textToSearchPath text.data)))
    · rw [fetchDog_notFound ht hok]
      simp [voiceSearchCatch]
    · rw [fetchDog_breed_ok ht hok]
      cases hs : synth (effectiveSpeed prefs.speed.data)
      · simp [voiceSearchCatch]
      · cases hp : playOk <;> simp [voiceSearchCatch]
  · rw [fetchDog_throws ht]
    simp [voiceSearchCatch]

theorem searchPhase_notFound_proj {text : String} {net : Net}
    {phrase : String} {synth : ℚ → Bool} {playOk : Bool}
    {narrFile : String} {prefs : Preferences}
    (ht : net.throws = false)
    (hok : net.ok (breedUrl (String.mk (textToSearchPath text.data))) = false)
    (w : World) :
    ((searchPhase text net phrase synth playOk narrFile prefs w).1).noBreedFound
        = some ("Could not find breed \"" ++ text ++ "\"") ∧
    ((searchPhase text net phrase synth playOk narrFile prefs w).1).transcribedText
        = "Heard: \"" ++ text ++ "\"" ∧
    ((searchPhase text net phrase synth playOk narrFile prefs w).1).recordingStage
        = .idle := by
  simp only [searchPhase]
  rw [fetchDog_notFound ht hok]
  simp

/-- C4: within one voice-search run the stage sequence follows the order
idle → listening → processing → transcribing → searching → idle.  On every
path the run ends in `idle`; the realized stage trace is always one of the
three order-respecting prefixes (failure truncates it, success realizes it
in full with no stage skipped); and a non-success breed probe (e.g. HTTP
404) ends the run in `idle` with the breed-not-found message while the
transcript message is retained — the failure handler did not fire. -/
theorem c4_pipeline_stage_monotone :
    ∀ (recFile : String) (recEvent : RecEvent)
      (sttOut : Except TranscriptionError String) (net : Net)
      (phrase : String) (synth : ℚ → Bool) (playOk : Bool)
      (narrFile : String) (prefs : Preferences) (w : World),
    ((handleVoiceSearch recFile recEvent sttOut net phrase synth playOk
        narrFile prefs w).1).recordingStage = .idle ∧
    ((handleVoiceSearch recFile recEvent sttOut net phrase synth playOk
        narrFile prefs w).2 = [.listening, .idle] ∨
     (handleVoiceSearch recFile recEvent sttOut net phrase synth playOk
        narrFile prefs w).2 = [.listening, .processing, .transcribing, .idle] ∨
     (handleVoiceSearch recFile recEvent sttOut net phrase synth playOk
        narrFile prefs w).2
       = [.listening, .processing, .transcribing, .searching, .idle]) ∧
    (∀ text, recordAudio recFile recEvent = .ok recFile →
      sttOut = .ok text →
      (handleVoiceSearch recFile recEvent sttOut net phrase synth playOk
          narrFile prefs w).2
        = [.listening, .processing, .transcribing, .searching, .idle]) ∧
    (∀ text, recordAudio recFile recEvent = .ok recFile →
      sttOut = .ok text → net.throws = false →
      net.ok (breedUrl (String.mk (textToSearchPath text.data))) = false →
      ((handleVoiceSearch recFile recEvent sttOut net phrase synth playOk
          narrFile prefs w).1).noBreedFound
          = some ("Could not find breed \"" ++ text ++ "\"") ∧
      ((handleVoiceSearch recFile recEvent sttOut net phrase synth playOk
          narrFile prefs w).1).transcribedText = "Heard: \"" ++ text ++ "\"" ∧
      ((handleVoiceSearch recFile recEvent sttOut net phrase synth playOk
          narrFile prefs w).1).recordingStage = .idle) := by
  intro recFile recEvent sttOut net phrase synth playOk narrFile prefs w
  refine ⟨?_, ?_, ?_, ?_⟩
  · rcases hre : recordAudio recFile recEvent with e | f
    · simp [handleVoiceSearch, hre, voiceSearchCatch]
    · rcases sttOut with e | text
      · simp [handleVoiceSearch, hre, speechToText, voiceSearchCatch]
      · simp only [handleVoiceSearch, hre, speechToText]
        exact (searchPhase_stage_trace text net phrase synth playOk
          narrFile prefs _).1
  · rcases hre : recordAudio recFile recEvent with e | f
    · simp [handleVoiceSearch, hre]
    · rcases sttOut with e | text
      · simp [handleVoiceSearch, hre, speechToText]
      · refine Or.inr (Or.inr ?_)
        simp only [handleVoiceSearch, hre, speechToText]
        exact (searchPhase_stage_trace text net phrase synth playOk
          narrFile prefs _).2
  · intro text hrec hstt
    subst hstt
    simp only [handleVoiceSearch, hrec, speechToText]
    exact (searchPhase_stage_trace text net phrase synth playOk
      narrFile prefs _).2
  · intro text hrec hstt ht hok
    subst hstt
    simp only [handleVoiceSearch, hrec, speechToText]
    exact searchPhase_notFound_proj ht hok _

/-- Witness for C4 with concrete oracles: a probe that reports 404. -/
theorem c4_pipeline_stage_monotone_witness :
    recordAudio "r.wav" (.exited (some 0)) = .ok "r.wav" ∧
    ((handleVoiceSearch "r.wav" (.exited (some 0)) (.ok "husky")
        ⟨fun _ => false, fun _ => "", false⟩ "p" (fun _ => true) true
        "t.mp3" samplePrefs sampleWorld).1).noBreedFound
      = some "Could not find breed \"husky\"" := by
  have h := (c4_pipeline_stage_monotone "r.wav" (.exited (some 0))
    (.ok "husky") ⟨fun _ => false, fun _ => "", false⟩ "p" (fun _ => true)
    true "t.mp3" samplePrefs sampleWorld).2.2.2 "husky" rfl rfl rfl rfl
  exact ⟨rfl, h.1⟩

end ShowDogs
